import Mathlib

/-!
Shallow embedding of the finance-tracker budget accounting core
(`budget.py` and `transaction.py`): per-category budget limits and
cumulative spending, status computation, and transaction validation.

Monetary values are modelled as rationals (`ℚ`); Python's `round(x, 2)`
is modelled as exact round-half-to-even at two decimal places.  Python
dictionaries keyed by category strings are modelled as association lists
with insertion-order-preserving upsert.  A value passed to `float(...)`
is modelled by `PyValue`: either a numeric value or a non-numeric one on
which `float` raises.
-/

namespace FinTrack

/-- An input that Python's `float(...)` is applied to: either something
that converts to a number, or something on which `float` raises
`ValueError`/`TypeError`. -/
inductive PyValue where
  | numeric (q : ℚ)
  | nonNumeric
deriving DecidableEq

/-- `float(v)`: `some q` when the input converts, `none` when it raises. -/
def pyFloat : PyValue → Option ℚ
  | .numeric q => some q
  | .nonNumeric => none

/-- Round a rational to the nearest integer, ties to even
(Python 3 `round` semantics, idealized over ℚ). -/
def roundHalfEven (q : ℚ) : ℤ :=
  if q - ⌊q⌋ < 1/2 then ⌊q⌋
  else if 1/2 < q - ⌊q⌋ then ⌊q⌋ + 1
  else if ⌊q⌋ % 2 = 0 then ⌊q⌋ else ⌊q⌋ + 1

/-- Python `round(q, 2)`: round to two decimal places. -/
def round2 (q : ℚ) : ℚ := (roundHalfEven (q * 100) : ℚ) / 100

/-- Characters removed by Python's `str.strip()` (ASCII whitespace). -/
def isSpaceChar (c : Char) : Bool :=
  c == ' ' || c == '\t' || c == '\n' || c == '\x0d' || c == '\x0b' || c == '\x0c'

/-- Python `str.lower()` on one character (ASCII range). -/
def lowerChar (c : Char) : Char :=
  if 65 ≤ c.toNat ∧ c.toNat ≤ 90 then Char.ofNat (c.toNat + 32) else c

/-- Strip whitespace from both ends of a character list. -/
def trimChars (l : List Char) : List Char :=
  ((l.dropWhile isSpaceChar).reverse.dropWhile isSpaceChar).reverse

/-- Python `s.strip()`. -/
def pyStrip (s : String) : String := ⟨trimChars s.data⟩

/-- Python `s.lower()`. -/
def pyLower (s : String) : String := ⟨s.data.map lowerChar⟩

/-- The category normalization `category.strip().lower()` applied by every
entry point of the budget and transaction code. -/
def pyNormalize (s : String) : String := pyLower (pyStrip s)

/-! ### Python dict, as an association list with insert-order upsert -/

/-- Dictionary lookup: `d[k]` / `d.get(k)`. -/
def dfind : List (String × ℚ) → String → Option ℚ
  | [], _ => none
  | (k', v) :: t, k => if k' = k then some v else dfind t k

/-- Dictionary membership test: `k in d`. -/
def dcontains (d : List (String × ℚ)) (k : String) : Bool :=
  (dfind d k).isSome

/-- Dictionary read with default: `d.get(k, v0)`. -/
def dgetD (d : List (String × ℚ)) (k : String) (v0 : ℚ) : ℚ :=
  (dfind d k).getD v0

/-- Dictionary write `d[k] = v`: update in place, or append a new entry. -/
def dset : List (String × ℚ) → String → ℚ → List (String × ℚ)
  | [], k, v => [(k, v)]
  | (k', v') :: t, k, v => if k' = k then (k, v) :: t else (k', v') :: dset t k v

/-! ### The Budget engine (`budget.py`) -/

/-- The `Budget` class state: `limits` and `spent`, both mapping a
normalized category name to a monetary value. -/
structure Budget where
  limits : List (String × ℚ)
  spent : List (String × ℚ)
deriving DecidableEq

/-- `Budget.__init__`: an empty budget. -/
def Budget.empty : Budget := ⟨[], []⟩

/-- Outcome of `set_limit`: whether a `ValueError` was raised, and the
object state when control leaves the method (the raise happens before any
assignment to `limits` or `spent`, so the state on a raise is the input
state). -/
structure SetLimitResult where
  raised : Bool
  state : Budget
deriving DecidableEq

/-- `Budget.set_limit(category, limit)`: normalize the category, convert
the limit with `float`, raise on non-numeric or non-positive input,
otherwise store the limit rounded to two decimals and seed `spent` at 0
when absent. -/
def Budget.set_limit (b : Budget) (category : String) (limit : PyValue) : SetLimitResult :=
  let c := pyNormalize category
  match pyFloat limit with
  | none => ⟨true, b⟩
  | some l =>
    if l ≤ 0 then ⟨true, b⟩
    else
      let b1 : Budget := { b with limits := dset b.limits c (round2 l) }
      let b2 : Budget :=
        if dcontains b1.spent c then b1 else { b1 with spent := dset b1.spent c 0 }
      ⟨false, b2⟩

/-- `Budget.add_expense(category, amount)`: normalize the category,
convert the amount with `float` (an uncaught `ValueError` on non-numeric
input, modelled as `none`), seed `spent` at 0 when absent, and add the
amount. No sign check is performed on the amount. -/
def Budget.add_expense (b : Budget) (category : String) (amount : PyValue) : Option Budget :=
  let c := pyNormalize category
  match pyFloat amount with
  | none => none
  | some a =>
    let b1 : Budget :=
      if dcontains b.spent c then b else { b with spent := dset b.spent c 0 }
    some { b1 with spent := dset b1.spent c (dgetD b1.spent c 0 + a) }

/-- `Budget.get_remaining(category)`: `None` when the normalized category
has no limit, otherwise the limit minus the spent total (0.0 by default). -/
def Budget.get_remaining (b : Budget) (category : String) : Option ℚ :=
  let c := pyNormalize category
  if !(dcontains b.limits c) then none
  else
    let spent := dgetD b.spent c 0
    some (dgetD b.limits c 0 - spent)

/-- `Budget.is_over_budget(category)`: true when `get_remaining` is
defined and strictly negative. -/
def Budget.is_over_budget (b : Budget) (category : String) : Bool :=
  match b.get_remaining category with
  | none => false
  | some r => decide (r < 0)

/-- The status dictionary returned by `Budget.get_status`. -/
structure Status where
  category : String
  limit : ℚ
  spent : ℚ
  remaining : ℚ
  percentage : ℚ
  over_budget : Bool
deriving DecidableEq

/-- `Budget.get_status(category)`: `None` when the normalized category has
no limit, otherwise the full status record; the percentage falls back to 0
unless the limit is strictly positive. -/
def Budget.get_status (b : Budget) (category : String) : Option Status :=
  let c := pyNormalize category
  if !(dcontains b.limits c) then none
  else
    let limit := dgetD b.limits c 0
    let spent := dgetD b.spent c 0
    let remaining := limit - spent
    let percentage := if 0 < limit then spent / limit * 100 else 0
    some ⟨c, limit, spent, remaining, percentage, decide (remaining < 0)⟩

/-- `Budget.get_all_categories()`: the set of keys of both maps. -/
def Budget.get_all_categories (b : Budget) : List String :=
  ((b.limits.map Prod.fst) ++ (b.spent.map Prod.fst)).dedup

/-- `Budget.get_budget_report()`: the statuses of the categories with a
configured limit, in sorted key order, skipping falsy entries. -/
def Budget.get_budget_report (b : Budget) : List Status :=
  ((b.limits.map Prod.fst).mergeSort (fun a c => decide (a ≤ c))).filterMap
    (fun c => b.get_status c)

/-- The snapshot produced by `Budget.to_dict`. -/
structure BudgetDict where
  limits : List (String × ℚ)
  spent : List (String × ℚ)
deriving DecidableEq

/-- `Budget.to_dict()`: a snapshot holding copies of both maps. -/
def Budget.to_dict (b : Budget) : BudgetDict := ⟨b.limits, b.spent⟩

/-! ### Transaction validation (`transaction.py`) -/

/-- The two `ValueError` flavours raised by `Transaction` validation. -/
inductive TxError where
  | invalidDate
  | invalidAmount
deriving DecidableEq

/-- Numeric value of a digit character. -/
def dv (c : Char) : ℕ := c.toNat - 48

/-- The anchored pattern of `validate_date`,
`^\d\x7b4\x7d-(0[1-9]|1[0-2])-(0[1-9]|[12]\d|3[01])$`:
it accepts exactly the length-10 strings made of a four digit year, a
dash, a month matching `0[1-9]|1[0-2]`, a dash, and a day matching
`0[1-9]|[12]\d|3[01]`. -/
def matchesDatePattern (s : String) : Bool :=
  match s.data with
  | [y1, y2, y3, y4, h1, m1, m2, h2, d1, d2] =>
    y1.isDigit && y2.isDigit && y3.isDigit && y4.isDigit &&
    h1 == '-' && h2 == '-' &&
    ((m1 == '0' && decide ('1' ≤ m2) && decide (m2 ≤ '9')) ||
     (m1 == '1' && decide ('0' ≤ m2) && decide (m2 ≤ '2'))) &&
    ((d1 == '0' && decide ('1' ≤ d2) && decide (d2 ≤ '9')) ||
     ((d1 == '1' || d1 == '2') && d2.isDigit) ||
     (d1 == '3' && decide ('0' ≤ d2) && decide (d2 ≤ '1')))
  | _ => false

/-- Gregorian leap year rule, as used by Python's `datetime`. -/
def isLeapYear (y : ℕ) : Bool :=
  y % 4 == 0 && (y % 100 != 0 || y % 400 == 0)

/-- Number of days of month `m` in year `y`. -/
def daysInMonth (y m : ℕ) : ℕ :=
  if m = 2 then (if isLeapYear y then 29 else 28)
  else if m = 4 ∨ m = 6 ∨ m = 9 ∨ m = 11 then 30
  else 31

/-- `datetime.strptime(date, "%Y-%m-%d")` succeeds, on strings of the
length-10 shape (the only shape `validate_date` feeds it after the
pattern check): all digit positions hold digits, and the parsed numbers
form a valid calendar date with year in `datetime`'s range 1..9999. -/
def strptimeOk (s : String) : Bool :=
  match s.data with
  | [y1, y2, y3, y4, h1, m1, m2, h2, d1, d2] =>
    y1.isDigit && y2.isDigit && y3.isDigit && y4.isDigit &&
    h1 == '-' && h2 == '-' &&
    m1.isDigit && m2.isDigit && d1.isDigit && d2.isDigit &&
    (decide (1 ≤ 1000 * dv y1 + 100 * dv y2 + 10 * dv y3 + dv y4) &&
     decide (1000 * dv y1 + 100 * dv y2 + 10 * dv y3 + dv y4 ≤ 9999) &&
     decide (1 ≤ 10 * dv m1 + dv m2) &&
     decide (10 * dv m1 + dv m2 ≤ 12) &&
     decide (1 ≤ 10 * dv d1 + dv d2) &&
     decide (10 * dv d1 + dv d2 ≤
       daysInMonth (1000 * dv y1 + 100 * dv y2 + 10 * dv y3 + dv y4)
         (10 * dv m1 + dv m2)))
  | _ => false

/-- `Transaction.validate_date`: reject unless the pattern matches, then
reject unless `strptime` parses; on success return the input unchanged. -/
def validate_date (date : String) : Except TxError String :=
  if !matchesDatePattern date then .error .invalidDate
  else if !strptimeOk date then .error .invalidDate
  else .ok date

/-- `Transaction.validate_amount`: convert with `float` (raising
`InvalidAmount` on non-numeric input), reject non-positive values, and
return the value rounded to two decimals. -/
def validate_amount (amount : PyValue) : Except TxError ℚ :=
  match pyFloat amount with
  | none => .error .invalidAmount
  | some a => if a ≤ 0 then .error .invalidAmount else .ok (round2 a)

/-- The `Income`/`Expense` tag; the subclasses only differ in display. -/
inductive TxKind where
  | income
  | expense
deriving DecidableEq

/-- A constructed `Transaction` (or `Income`/`Expense`): stored date,
amount, category, description, and the variant tag. -/
structure Transaction where
  date : String
  amount : ℚ
  category : String
  description : String
  kind : TxKind
deriving DecidableEq

/-- `Transaction.__init__`: validate the date, then the amount, then store
the normalized category and the stripped description. -/
def mkTransaction (kind : TxKind) (date : String) (amount : PyValue)
    (category description : String) : Except TxError Transaction := do
  let d ← validate_date date
  let a ← validate_amount amount
  pure ⟨d, a, pyNormalize category, pyStrip description, kind⟩

/-- A real `YYYY-MM-DD` calendar date, following the spec's words: a four
digit year, a dash, a two digit month, a dash and a two digit day, whose
numeric values denote an actual day of the (proleptic Gregorian, AD 1 to
AD 9999) calendar: month between 1 and 12 and day between 1 and the
number of days of that month in that year. -/
def isRealYMD (s : String) : Bool :=
  match s.data with
  | [y1, y2, y3, y4, h1, m1, m2, h2, d1, d2] =>
    y1.isDigit && y2.isDigit && y3.isDigit && y4.isDigit &&
    h1 == '-' && h2 == '-' &&
    m1.isDigit && m2.isDigit && d1.isDigit && d2.isDigit &&
    (decide (1 ≤ 1000 * dv y1 + 100 * dv y2 + 10 * dv y3 + dv y4) &&
     decide (1 ≤ 10 * dv m1 + dv m2) &&
     decide (10 * dv m1 + dv m2 ≤ 12) &&
     decide (1 ≤ 10 * dv d1 + dv d2) &&
     decide (10 * dv d1 + dv d2 ≤
       daysInMonth (1000 * dv y1 + 100 * dv y2 + 10 * dv y3 + dv y4)
         (10 * dv m1 + dv m2)))
  | _ => false

/-! ### The query methods with the object state threaded through

Each `_st` variant is the same translation of the Python method body, but
returns the `Budget` state as it stands when the method returns, so that
reading off "the state is unchanged" is a statement about the embedding
rather than a convention.  Every step of these methods is a dictionary
read (`in`, `[]`, `.get`, `.keys()`, `.copy()`); none assigns. -/

def Budget.get_remaining_st (b : Budget) (category : String) : Option ℚ × Budget :=
  let c := pyNormalize category
  if !(dcontains b.limits c) then (none, b)
  else (some (dgetD b.limits c 0 - dgetD b.spent c 0), b)

def Budget.is_over_budget_st (b : Budget) (category : String) : Bool × Budget :=
  match b.get_remaining_st category with
  | (none, b1) => (false, b1)
  | (some r, b1) => (decide (r < 0), b1)

def Budget.get_status_st (b : Budget) (category : String) : Option Status × Budget :=
  let c := pyNormalize category
  if !(dcontains b.limits c) then (none, b)
  else
    (some ⟨c, dgetD b.limits c 0, dgetD b.spent c 0,
      dgetD b.limits c 0 - dgetD b.spent c 0,
      if 0 < dgetD b.limits c 0 then dgetD b.spent c 0 / dgetD b.limits c 0 * 100 else 0,
      decide (dgetD b.limits c 0 - dgetD b.spent c 0 < 0)⟩, b)

def Budget.get_all_categories_st (b : Budget) : List String × Budget :=
  (((b.limits.map Prod.fst) ++ (b.spent.map Prod.fst)).dedup, b)

/-- The `for` loop of `get_budget_report`, threading the state. -/
def reportLoop (st : Budget) : List String → List Status × Budget
  | [] => ([], st)
  | c :: rest =>
    match st.get_status_st c with
    | (none, st1) => reportLoop st1 rest
    | (some s, st1) =>
      match reportLoop st1 rest with
      | (tail, st2) => (s :: tail, st2)

def Budget.get_budget_report_st (b : Budget) : List Status × Budget :=
  reportLoop b ((b.limits.map Prod.fst).mergeSort (fun a c => decide (a ≤ c)))

def Budget.to_dict_st (b : Budget) : BudgetDict × Budget :=
  (⟨b.limits, b.spent⟩, b)

/-! ### States reachable by successful mutator calls -/

/-- The budgets reachable from a fresh `Budget()` by any sequence of
successful `set_limit` and `add_expense` calls. -/
inductive Reachable : Budget → Prop where
  | empty : Reachable Budget.empty
  | set_limit (b : Budget) (c : String) (l : PyValue) :
      Reachable b → (b.set_limit c l).raised = false →
      Reachable (b.set_limit c l).state
  | add_expense (b : Budget) (c : String) (a : PyValue) (b1 : Budget) :
      Reachable b → b.add_expense c a = some b1 → Reachable b1

/-- Reachability restricted to non-negative expense amounts. -/
inductive ReachableNN : Budget → Prop where
  | empty : ReachableNN Budget.empty
  | set_limit (b : Budget) (c : String) (l : PyValue) :
      ReachableNN b → (b.set_limit c l).raised = false →
      ReachableNN (b.set_limit c l).state
  | add_expense (b : Budget) (c : String) (q : ℚ) (b1 : Budget) :
      ReachableNN b → 0 ≤ q → b.add_expense c (.numeric q) = some b1 →
      ReachableNN b1

/-! ## Lemmas -/

theorem roundHalfEven_nonneg {q : ℚ} (h : 0 ≤ q) : 0 ≤ roundHalfEven q := by
  unfold roundHalfEven
  have hn : (0 : ℤ) ≤ ⌊q⌋ := Int.floor_nonneg.mpr h
  split
  · exact hn
  · split
    · omega
    · split <;> omega

theorem round2_nonneg {q : ℚ} (h : 0 ≤ q) : 0 ≤ round2 q := by
  unfold round2
  have := roundHalfEven_nonneg (q := q * 100) (by positivity)
  positivity

theorem mem_dset_elim {d : List (String × ℚ)} {k : String} {v : ℚ} {p : String × ℚ}
    (h : p ∈ dset d k v) : p = (k, v) ∨ p ∈ d := by
  revert h
  induction d with
  | nil => intro h; simpa [dset] using h
  | cons hd t ih =>
    intro h
    obtain ⟨k', v'⟩ := hd
    by_cases hk : k' = k
    · rw [dset, if_pos hk] at h
      rcases List.mem_cons.mp h with h1 | h1
      · exact Or.inl h1
      · exact Or.inr (List.mem_cons_of_mem _ h1)
    · rw [dset, if_neg hk] at h
      rcases List.mem_cons.mp h with h1 | h1
      · exact Or.inr (h1 ▸ List.mem_cons_self _ _)
      · rcases ih h1 with h2 | h2
        · exact Or.inl h2
        · exact Or.inr (List.mem_cons_of_mem _ h2)

theorem dfind_mem {d : List (String × ℚ)} {k : String} {v : ℚ}
    (h : dfind d k = some v) : (k, v) ∈ d := by
  revert h
  induction d with
  | nil => intro h; simp [dfind] at h
  | cons hd t ih =>
    intro h
    obtain ⟨k', v'⟩ := hd
    by_cases hk : k' = k
    · rw [dfind, if_pos hk] at h
      subst hk
      exact Option.some_inj.mp h ▸ List.mem_cons_self _ _
    · rw [dfind, if_neg hk] at h
      exact List.mem_cons_of_mem _ (ih h)

theorem dgetD_nonneg {d : List (String × ℚ)} {k : String}
    (h : ∀ p ∈ d, 0 ≤ p.2) : 0 ≤ dgetD d k 0 := by
  unfold dgetD
  cases hf : dfind d k with
  | none => simp
  | some v => simpa using h _ (dfind_mem hf)


theorem daysInMonth_le_31 (y m : ℕ) : daysInMonth y m ≤ 31 := by
  unfold daysInMonth
  split
  · split <;> omega
  · split <;> omega

theorem char_le_iff {a b : Char} : a ≤ b ↔ a.toNat ≤ b.toNat := Iff.rfl

theorem char_eq_iff {a b : Char} : a = b ↔ a.toNat = b.toNat := by
  constructor
  · rintro rfl; rfl
  · intro h
    exact Char.eq_of_val_eq (UInt32.eq_of_toBitVec_eq (BitVec.toNat_injective h))

theorem isDigit_iff {c : Char} : c.isDigit = true ↔ 48 ≤ c.toNat ∧ c.toNat ≤ 57 := by
  rw [Char.isDigit, Bool.and_eq_true, decide_eq_true_eq, decide_eq_true_eq]
  exact Iff.rfl

/-- The two-phase check of `validate_date` — the anchored pattern followed
by `strptime` — accepts exactly the real `YYYY-MM-DD` calendar dates. -/
theorem pattern_strptime_eq_isRealYMD (s : String) :
    (matchesDatePattern s && strptimeOk s) = isRealYMD s := by
  obtain ⟨l⟩ := s
  rcases l with _ | ⟨c1, _ | ⟨c2, _ | ⟨c3, _ | ⟨c4, _ | ⟨c5, _ | ⟨c6, _ | ⟨c7, _ |
    ⟨c8, _ | ⟨c9, _ | ⟨c10, _ | ⟨c11, t⟩⟩⟩⟩⟩⟩⟩⟩⟩⟩⟩ <;> try rfl
  rw [Bool.eq_iff_iff]
  have hD : daysInMonth
      (1000 * (c1.toNat - 48) + 100 * (c2.toNat - 48) + 10 * (c3.toNat - 48)
        + (c4.toNat - 48))
      (10 * (c6.toNat - 48) + (c7.toNat - 48)) ≤ 31 := daysInMonth_le_31 _ _
  have hd : ('-' : Char).toNat = 45 := rfl
  have h0 : ('0' : Char).toNat = 48 := rfl
  have h1 : ('1' : Char).toNat = 49 := rfl
  have h2 : ('2' : Char).toNat = 50 := rfl
  have h3 : ('3' : Char).toNat = 51 := rfl
  have h9 : ('9' : Char).toNat = 57 := rfl
  simp only [matchesDatePattern, strptimeOk, isRealYMD, dv, Bool.and_eq_true,
    Bool.or_eq_true, decide_eq_true_eq, beq_iff_eq, isDigit_iff, char_le_iff,
    char_eq_iff, hd, h0, h1, h2, h3, h9]
  omega

/-! ### Normalization is idempotent: lemmas about `pyStrip` and `pyLower` -/

theorem toNat_ofNat_of_lt {n : ℕ} (h : n < 55296) : (Char.ofNat n).toNat = n := by
  rw [Char.ofNat, dif_pos (Or.inl h)]
  simp [Char.ofNatAux, Char.toNat, UInt32.ofNat', UInt32.toNat, BitVec.toNat_ofNatLt]

theorem toNat_lowerChar (c : Char) :
    (lowerChar c).toNat =
      if 65 ≤ c.toNat ∧ c.toNat ≤ 90 then c.toNat + 32 else c.toNat := by
  unfold lowerChar
  split
  · exact toNat_ofNat_of_lt (by omega)
  · rfl

theorem isSpaceChar_eq_toNat (c : Char) :
    isSpaceChar c = decide (c.toNat = 32 ∨ c.toNat = 9 ∨ c.toNat = 10 ∨
      c.toNat = 13 ∨ c.toNat = 11 ∨ c.toNat = 12) := by
  have hsp : (' ' : Char).toNat = 32 := rfl
  have hta : ('\t' : Char).toNat = 9 := rfl
  have hnl : ('\n' : Char).toNat = 10 := rfl
  have hcr : ('\x0d' : Char).toNat = 13 := rfl
  have hvt : ('\x0b' : Char).toNat = 11 := rfl
  have hff : ('\x0c' : Char).toNat = 12 := rfl
  rw [Bool.eq_iff_iff]
  simp only [isSpaceChar, Bool.or_eq_true, beq_iff_eq, decide_eq_true_eq,
    char_eq_iff, hsp, hta, hnl, hcr, hvt, hff]
  tauto

theorem isSpaceChar_lowerChar (c : Char) : isSpaceChar (lowerChar c) = isSpaceChar c := by
  rw [isSpaceChar_eq_toNat, isSpaceChar_eq_toNat, toNat_lowerChar]
  rw [Bool.eq_iff_iff]
  simp only [decide_eq_true_eq]
  split <;> omega

theorem lowerChar_lowerChar (c : Char) : lowerChar (lowerChar c) = lowerChar c := by
  rw [char_eq_iff, toNat_lowerChar (lowerChar c), toNat_lowerChar c]
  split_ifs <;> omega

theorem dropWhile_dropWhile_self (p : Char → Bool) (l : List Char) :
    (l.dropWhile p).dropWhile p = l.dropWhile p := by
  induction l with
  | nil => rfl
  | cons a t ih =>
    by_cases h : p a = true
    · rw [List.dropWhile_cons_of_pos h]
      exact ih
    · rw [List.dropWhile_cons_of_neg h, List.dropWhile_cons_of_neg h]

theorem dropWhile_cons_head {p : Char → Bool} {l x : List Char} {a : Char}
    (h : l.dropWhile p = a :: x) : ¬ p a = true := by
  revert h
  induction l with
  | nil => intro h; simp at h
  | cons b t ih =>
    intro h
    by_cases hb : p b = true
    · rw [List.dropWhile_cons_of_pos hb] at h
      exact ih h
    · rw [List.dropWhile_cons_of_neg hb] at h
      obtain ⟨rfl, -⟩ := List.cons.inj h
      exact hb

theorem trimChars_head_not_space {l : List Char} {a : Char} {t : List Char}
    (h : trimChars l = a :: t) : ¬ isSpaceChar a = true := by
  have hsuf : ((l.dropWhile isSpaceChar).reverse.dropWhile isSpaceChar) <:+
      (l.dropWhile isSpaceChar).reverse := List.dropWhile_suffix _
  have hpre := List.reverse_prefix.mpr hsuf
  rw [List.reverse_reverse] at hpre
  obtain ⟨r, hr⟩ := hpre
  have hr2 : l.dropWhile isSpaceChar = a :: (t ++ r) := by
    rw [← hr]
    show trimChars l ++ r = a :: (t ++ r)
    rw [h]
    rfl
  exact dropWhile_cons_head hr2

theorem dropWhile_trimChars (l : List Char) :
    (trimChars l).dropWhile isSpaceChar = trimChars l := by
  cases h : trimChars l with
  | nil => rfl
  | cons a t => exact List.dropWhile_cons_of_neg (trimChars_head_not_space h)

theorem reverse_trimChars (l : List Char) :
    (trimChars l).reverse = (l.dropWhile isSpaceChar).reverse.dropWhile isSpaceChar :=
  List.reverse_reverse _

theorem trimChars_idem (l : List Char) : trimChars (trimChars l) = trimChars l :=
  calc trimChars (trimChars l)
      = (((trimChars l).dropWhile isSpaceChar).reverse.dropWhile isSpaceChar).reverse := rfl
    _ = ((trimChars l).reverse.dropWhile isSpaceChar).reverse := by
        rw [dropWhile_trimChars]
    _ = ((((l.dropWhile isSpaceChar).reverse.dropWhile isSpaceChar)).dropWhile
          isSpaceChar).reverse := by rw [reverse_trimChars]
    _ = ((l.dropWhile isSpaceChar).reverse.dropWhile isSpaceChar).reverse := by
        rw [dropWhile_dropWhile_self]
    _ = trimChars l := rfl

theorem trimChars_map_lowerChar (l : List Char) :
    trimChars (l.map lowerChar) = (trimChars l).map lowerChar := by
  have hpf : isSpaceChar ∘ lowerChar = isSpaceChar := funext isSpaceChar_lowerChar
  unfold trimChars
  rw [List.dropWhile_map, hpf, ← List.map_reverse, List.dropWhile_map, hpf,
    ← List.map_reverse]

theorem pyLower_pyNormalize (s : String) : pyLower (pyNormalize s) = pyNormalize s := by
  unfold pyNormalize pyLower pyStrip
  congr 1
  rw [List.map_map]
  congr 1
  funext c
  exact lowerChar_lowerChar c

theorem pyStrip_pyNormalize (s : String) : pyStrip (pyNormalize s) = pyNormalize s := by
  unfold pyNormalize pyLower pyStrip
  congr 1
  rw [trimChars_map_lowerChar, trimChars_idem]

theorem get_status_st_eq (b : Budget) (c : String) :
    b.get_status_st c = (b.get_status c, b) := by
  unfold Budget.get_status_st Budget.get_status
  dsimp only
  by_cases hc : (!(dcontains b.limits (pyNormalize c))) = true
  · simp only [if_pos hc]
  · simp only [if_neg hc]

theorem reportLoop_eq (b : Budget) (l : List String) :
    reportLoop b l = (l.filterMap (fun c => b.get_status c), b) := by
  induction l with
  | nil => rfl
  | cons c rest ih =>
    rw [reportLoop, get_status_st_eq]
    cases hs : b.get_status c with
    | none => simp [hs, ih]
    | some s => simp [hs, ih]

/-- What a successful `set_limit` call does to the state. -/
theorem set_limit_success {b : Budget} {c : String} {l : PyValue}
    (h : (b.set_limit c l).raised = false) :
    ∃ q, pyFloat l = some q ∧ 0 < q ∧
      (b.set_limit c l).state.limits = dset b.limits (pyNormalize c) (round2 q) ∧
      ((b.set_limit c l).state.spent = b.spent ∨
       (b.set_limit c l).state.spent = dset b.spent (pyNormalize c) 0) := by
  unfold Budget.set_limit at h ⊢
  cases hf : pyFloat l with
  | none =>
    rw [hf] at h
    simp at h
  | some q =>
    simp only [hf] at h ⊢
    by_cases hq : q ≤ 0
    · rw [if_pos hq] at h
      simp at h
    · rw [if_neg hq] at h ⊢
      refine ⟨q, rfl, lt_of_not_ge hq, ?_, ?_⟩
      · dsimp only
        split <;> rfl
      · dsimp only
        split
        · exact Or.inl rfl
        · exact Or.inr rfl

/-- What a successful `add_expense` call does to the state. -/
theorem add_expense_success {b : Budget} {c : String} {a : PyValue} {b1 : Budget}
    (h : b.add_expense c a = some b1) :
    ∃ q, pyFloat a = some q ∧ b1.limits = b.limits ∧
      ∃ s0, (s0 = b.spent ∨ s0 = dset b.spent (pyNormalize c) 0) ∧
        b1.spent = dset s0 (pyNormalize c) (dgetD s0 (pyNormalize c) 0 + q) := by
  unfold Budget.add_expense at h
  cases hf : pyFloat a with
  | none =>
    rw [hf] at h
    simp at h
  | some q =>
    simp only [hf, Option.some.injEq] at h
    subst h
    refine ⟨q, rfl, ?_, ?_⟩
    · dsimp only
      split <;> rfl
    · dsimp only
      split
      · exact ⟨b.spent, Or.inl rfl, rfl⟩
      · exact ⟨dset b.spent (pyNormalize c) 0, Or.inr rfl, rfl⟩

/-- Invariant: along any reachable history, every stored limit is
non-negative (the positivity check happens before the rounding, so 0 can
be stored, but nothing negative can). -/
theorem reachable_limits_nonneg {b : Budget} (h : Reachable b) :
    ∀ p ∈ b.limits, 0 ≤ p.2 := by
  induction h with
  | empty => intro p hp; simp [Budget.empty] at hp
  | set_limit b0 c l _ hok ih =>
    intro p hp
    obtain ⟨q, _, hqpos, hlim, _⟩ := set_limit_success hok
    rw [hlim] at hp
    rcases mem_dset_elim hp with rfl | hp0
    · exact round2_nonneg (le_of_lt hqpos)
    · exact ih p hp0
  | add_expense b0 c a b1 _ hok ih =>
    intro p hp
    obtain ⟨q, _, hlim, _⟩ := add_expense_success hok
    rw [hlim] at hp
    exact ih p hp

/-- Invariant: with only non-negative expense amounts, every spent total
stays non-negative. -/
theorem reachableNN_spent_nonneg {b : Budget} (h : ReachableNN b) :
    ∀ p ∈ b.spent, 0 ≤ p.2 := by
  induction h with
  | empty => intro p hp; simp [Budget.empty] at hp
  | set_limit b0 c l _ hok ih =>
    intro p hp
    obtain ⟨q, _, _, _, hsp⟩ := set_limit_success hok
    rcases hsp with hsp | hsp
    · rw [hsp] at hp
      exact ih p hp
    · rw [hsp] at hp
      rcases mem_dset_elim hp with rfl | hp0
      · exact le_refl 0
      · exact ih p hp0
  | add_expense b0 c q b1 _ hq hok ih =>
    intro p hp
    obtain ⟨q', hq', _, s0, hs0, hsp⟩ := add_expense_success hok
    have hqq : q' = q := by
      simp [pyFloat] at hq'
      exact hq'.symm
    subst hqq
    have hs0nn : ∀ p ∈ s0, 0 ≤ p.2 := by
      rcases hs0 with rfl | rfl
      · exact ih
      · intro p0 hp0
        rcases mem_dset_elim hp0 with rfl | hp1
        · exact le_refl 0
        · exact ih p0 hp1
    rw [hsp] at hp
    rcases mem_dset_elim hp with rfl | hp0
    · exact add_nonneg (dgetD_nonneg hs0nn) hq
    · exact hs0nn p hp0

theorem validate_date_ok {d s : String} (h : validate_date d = .ok s) :
    s = d ∧ isRealYMD d = true := by
  unfold validate_date at h
  split at h
  · exact absurd h (by simp)
  · split at h
    · exact absurd h (by simp)
    · rename_i h1 h2
      refine ⟨(Except.ok.inj h).symm, ?_⟩
      rw [← pattern_strptime_eq_isRealYMD]
      simp at h1 h2
      simp [h1, h2]

theorem validate_date_of_real {d : String} (h : isRealYMD d = true) :
    validate_date d = .ok d := by
  rw [← pattern_strptime_eq_isRealYMD, Bool.and_eq_true] at h
  unfold validate_date
  rw [h.1, h.2]
  rfl

theorem validate_date_of_not_real {d : String} (h : isRealYMD d = false) :
    validate_date d = .error .invalidDate := by
  rw [← pattern_strptime_eq_isRealYMD] at h
  unfold validate_date
  rcases Bool.and_eq_false_iff.mp h with h1 | h1 <;> rw [h1] <;> simp

theorem validate_amount_ok {a : PyValue} {x : ℚ} (h : validate_amount a = .ok x) :
    ∃ q, pyFloat a = some q ∧ 0 < q ∧ x = round2 q := by
  unfold validate_amount at h
  cases hf : pyFloat a with
  | none => rw [hf] at h; exact absurd h (by simp)
  | some q =>
    rw [hf] at h
    dsimp only at h
    by_cases hq : q ≤ 0
    · rw [if_pos hq] at h
      exact absurd h (by simp)
    · rw [if_neg hq] at h
      exact ⟨q, rfl, lt_of_not_ge hq, (Except.ok.inj h).symm⟩

/-! ## The claims -/

/-- C1: for every budget state and category string, `get_remaining` is
absent (not zero, not an exception) when the normalized category has no
limit, regardless of any spend history, and `is_over_budget` is false
there; when a limit exists, `get_remaining` is the limit minus the spent
total (0.0 when absent) and `is_over_budget` holds exactly when that
difference is strictly negative. -/
theorem C1_get_remaining_is_over_budget (b : Budget) (c : String) :
    (dfind b.limits (pyNormalize c) = none →
      b.get_remaining c = none ∧ b.is_over_budget c = false) ∧
    (∀ l, dfind b.limits (pyNormalize c) = some l →
      b.get_remaining c = some (l - dgetD b.spent (pyNormalize c) 0) ∧
      (b.is_over_budget c = true ↔ l - dgetD b.spent (pyNormalize c) 0 < 0)) := by
  constructor
  · intro h
    have hr : b.get_remaining c = none := by
      unfold Budget.get_remaining
      simp [dcontains, h]
    refine ⟨hr, ?_⟩
    unfold Budget.is_over_budget
    rw [hr]
  · intro l h
    have hr : b.get_remaining c = some (l - dgetD b.spent (pyNormalize c) 0) := by
      unfold Budget.get_remaining
      simp [dcontains, dgetD, h]
    refine ⟨hr, ?_⟩
    unfold Budget.is_over_budget
    rw [hr]
    simp

/-- Witness for C1 at the spec's own scenario: limit 100, spent 110. -/
theorem C1_witness :
    Budget.get_remaining ⟨[("food", 100)], [("food", 110)]⟩ "food" = some (-10) ∧
    Budget.is_over_budget ⟨[("food", 100)], [("food", 110)]⟩ "food" = true := by
  have hn : pyNormalize "food" = "food" := by decide
  have h := (C1_get_remaining_is_over_budget ⟨[("food", 100)], [("food", 110)]⟩ "food").2
    100 (by rw [hn]; norm_num [dfind])
  have hsp : dgetD ([("food", (110 : ℚ))]) (pyNormalize "food") 0 = 110 := by
    rw [hn]; norm_num [dgetD, dfind]
  rw [hsp] at h
  refine ⟨?_, h.2.mpr (by norm_num)⟩
  rw [h.1]
  norm_num

/-- C2 counterexample: in the state `limits = {"a": -5}, spent = {"a": 1}`
(a negative limit is accepted silently by `from_dict`), the code returns
percentage 0 although `spent/limit*100 = -20 ≠ 0` and the limit is not 0,
so "percentage = spent/limit*100 (defined as 0 when limit is 0)" fails. -/
theorem C2_counterexample :
    (Budget.mk [("a", -5)] [("a", 1)]).get_status "a" =
      some ⟨"a", -5, 1, -6, 0, true⟩ ∧
    (1 : ℚ) / (-5) * 100 = -20 ∧ (-20 : ℚ) ≠ 0 ∧ (-5 : ℚ) ≠ 0 := by
  constructor
  · have h1 : pyNormalize "a" = "a" := by decide
    norm_num [Budget.get_status, dcontains, dfind, dgetD, h1]
  · norm_num

/-- C2 (amended): `get_status` is absent when the normalized category has
no limit; otherwise the record holds the normalized category, the limit,
the spent total (0.0 when absent), remaining = limit - spent,
over_budget = (remaining < 0), and percentage = spent/limit*100 when
limit > 0 and 0 when limit ≤ 0 (the code guards on `limit > 0`, not just
on `limit = 0`). -/
theorem C2_get_status (b : Budget) (c : String) :
    b.get_status c = (dfind b.limits (pyNormalize c)).map (fun limit =>
      { category := pyNormalize c
        limit := limit
        spent := dgetD b.spent (pyNormalize c) 0
        remaining := limit - dgetD b.spent (pyNormalize c) 0
        percentage :=
          if 0 < limit then dgetD b.spent (pyNormalize c) 0 / limit * 100 else 0
        over_budget := decide (limit - dgetD b.spent (pyNormalize c) 0 < 0) }) := by
  unfold Budget.get_status
  cases h : dfind b.limits (pyNormalize c) with
  | none => simp [dcontains, h]
  | some l => simp [dcontains, dgetD, h]

/-- C3: `set_limit` raises `InvalidLimit` exactly when the limit is
non-numeric or its numeric value is at most 0, and on such a failure the
state (both maps) is the unchanged input state. -/
theorem C3_set_limit_fail_no_mutation (b : Budget) (c : String) (l : PyValue) :
    ((b.set_limit c l).raised = true ↔
      pyFloat l = none ∨ ∃ q, pyFloat l = some q ∧ q ≤ 0) ∧
    ((b.set_limit c l).raised = true → (b.set_limit c l).state = b) := by
  unfold Budget.set_limit
  cases hf : pyFloat l with
  | none => simp
  | some q =>
    by_cases hq : q ≤ 0
    · simp [if_pos hq, hq]
    · simp [if_neg hq, hq]

/-- Witness for C3 at the spec's own scenario: `set_limit("rent", -5)`
raises and leaves the empty budget unchanged. -/
theorem C3_witness :
    (Budget.empty.set_limit "rent" (.numeric (-5))).raised = true ∧
    (Budget.empty.set_limit "rent" (.numeric (-5))).state = Budget.empty := by
  have h := C3_set_limit_fail_no_mutation Budget.empty "rent" (.numeric (-5))
  have hr : (Budget.empty.set_limit "rent" (.numeric (-5))).raised = true :=
    h.1.mpr (Or.inr ⟨-5, rfl, by norm_num⟩)
  exact ⟨hr, h.2 hr⟩

/-- C4 counterexample: `add_expense` performs no sign check, so the state
whose spent map carries -5 for "food" is reachable from the empty budget
by one successful `add_expense("food", -5)` call, and its spent value is
negative. -/
theorem C4_counterexample :
    Reachable (Budget.mk [] [("food", -5)]) ∧
    ("food", (-5 : ℚ)) ∈ (Budget.mk [] [("food", -5)]).spent ∧
    ¬ (0 : ℚ) ≤ (("food", (-5 : ℚ)) : String × ℚ).2 := by
  refine ⟨?_, by simp, by norm_num⟩
  have h1 : pyNormalize "food" = "food" := by decide
  have hadd : Budget.empty.add_expense "food" (.numeric (-5)) =
      some (Budget.mk [] [("food", -5)]) := by
    norm_num [Budget.add_expense, Budget.empty, pyFloat, dset, dcontains, dfind, dgetD, h1]
  exact Reachable.add_expense Budget.empty "food" (.numeric (-5)) _ Reachable.empty hadd

/-- C4 (amended): for every budget reachable from the empty budget by
successful `set_limit` and `add_expense` calls in which every expense
amount is non-negative, every value in the spent map is non-negative.
(The unamended claim fails because `add_expense` accepts negative
amounts.) -/
theorem C4_spent_nonneg {b : Budget} (h : ReachableNN b) :
    ∀ p ∈ b.spent, 0 ≤ p.2 :=
  reachableNN_spent_nonneg h

/-- Witness for C4 after `set_limit("food", 100)`. -/
theorem C4_witness :
    ReachableNN (Budget.mk [("food", 100)] [("food", 0)]) ∧
    (0 : ℚ) ≤ (("food", (0 : ℚ)) : String × ℚ).2 := by
  have h1 : pyNormalize "food" = "food" := by decide
  have hsl : Budget.empty.set_limit "food" (.numeric 100) =
      ⟨false, Budget.mk [("food", 100)] [("food", 0)]⟩ := by
    norm_num [Budget.set_limit, Budget.empty, pyFloat, dset, dcontains, dfind,
      round2, roundHalfEven, h1]
  have hre : ReachableNN (Budget.mk [("food", 100)] [("food", 0)]) := by
    have := ReachableNN.set_limit Budget.empty "food" (.numeric 100)
      ReachableNN.empty (by rw [hsl])
    rwa [hsl] at this
  exact ⟨hre, C4_spent_nonneg hre ("food", 0) (by simp)⟩

/-- C5 counterexample: `set_limit` checks positivity before rounding, so
the call `set_limit("a", 0.004)` succeeds and stores the limit 0.0, which
is not strictly greater than 0; the resulting state is reachable. -/
theorem C5_counterexample :
    (Budget.empty.set_limit "a" (.numeric (1/250))).raised = false ∧
    (Budget.empty.set_limit "a" (.numeric (1/250))).state.limits = [("a", 0)] ∧
    Reachable (Budget.empty.set_limit "a" (.numeric (1/250))).state ∧
    ¬ (0 : ℚ) < 0 := by
  have h1 : pyNormalize "a" = "a" := by decide
  have hr : (Budget.empty.set_limit "a" (.numeric (1/250))).raised = false := by
    norm_num [Budget.set_limit, Budget.empty, pyFloat, h1]
  refine ⟨hr, ?_, ?_, by norm_num⟩
  · norm_num [Budget.set_limit, Budget.empty, pyFloat, dset, dcontains, dfind,
      round2, roundHalfEven, h1]
  · exact Reachable.set_limit Budget.empty "a" (.numeric (1/250)) Reachable.empty hr

/-- C5 (amended): for every budget reachable from the empty budget by
successful `set_limit` and `add_expense` calls, every value in the limits
map is non-negative (it is the input limit rounded to 2 decimals after
the positivity check, which can round a small positive input down to 0,
but never below 0). -/
theorem C5_limits_nonneg {b : Budget} (h : Reachable b) :
    ∀ p ∈ b.limits, 0 ≤ p.2 :=
  reachable_limits_nonneg h

/-- Witness for C5 after `set_limit("food", 100)`. -/
theorem C5_witness :
    Reachable (Budget.mk [("food", 100)] [("food", 0)]) ∧
    (0 : ℚ) ≤ (("food", (100 : ℚ)) : String × ℚ).2 := by
  have h1 : pyNormalize "food" = "food" := by decide
  have hsl : Budget.empty.set_limit "food" (.numeric 100) =
      ⟨false, Budget.mk [("food", 100)] [("food", 0)]⟩ := by
    norm_num [Budget.set_limit, Budget.empty, pyFloat, dset, dcontains, dfind,
      round2, roundHalfEven, h1]
  have hre : Reachable (Budget.mk [("food", 100)] [("food", 0)]) := by
    have := Reachable.set_limit Budget.empty "food" (.numeric 100)
      Reachable.empty (by rw [hsl])
    rwa [hsl] at this
  exact ⟨hre, C5_limits_nonneg hre ("food", 100) (by simp)⟩

/-- C6 counterexample: `validate_amount` checks positivity before
rounding, so `Transaction("2024-01-01", 0.004, "food", "")` is
constructed successfully with stored amount 0.0, which is not strictly
positive. -/
theorem C6_counterexample :
    mkTransaction .expense "2024-01-01" (.numeric (1/250)) "food" "" =
      .ok ⟨"2024-01-01", 0, "food", "", .expense⟩ ∧
    ¬ (0 : ℚ) < 0 := by
  refine ⟨?_, by norm_num⟩
  have hd : validate_date "2024-01-01" = .ok "2024-01-01" :=
    validate_date_of_real (by decide)
  have ha : validate_amount (.numeric (1/250)) = .ok 0 := by
    norm_num [validate_amount, pyFloat, round2, roundHalfEven]
  have hc : pyNormalize "food" = "food" := by decide
  have hds : pyStrip "" = "" := by decide
  unfold mkTransaction
  rw [hd, ha]
  show Except.ok _ = _
  rw [hc, hds]

/-- C6 (amended): every successfully constructed transaction stores a
non-negative amount (the rounded value of a strictly positive input,
which can be 0.0 for inputs below 0.005), a date that is a real
`YYYY-MM-DD` calendar date, and a category that is lower-case with no
leading or trailing whitespace. -/
theorem C6_invariants (k : TxKind) (d : String) (a : PyValue) (c ds : String)
    (t : Transaction) (h : mkTransaction k d a c ds = .ok t) :
    0 ≤ t.amount ∧ isRealYMD t.date = true ∧
    pyLower t.category = t.category ∧ pyStrip t.category = t.category := by
  unfold mkTransaction at h
  cases hd : validate_date d with
  | error e =>
    rw [hd] at h
    exact absurd h (by simp [Bind.bind, Except.bind])
  | ok d1 =>
    rw [hd] at h
    cases ha : validate_amount a with
    | error e =>
      rw [ha] at h
      exact absurd h (by simp [Bind.bind, Except.bind])
    | ok x =>
      rw [ha] at h
      have ht : t = ⟨d1, x, pyNormalize c, pyStrip ds, k⟩ :=
        (Except.ok.inj h).symm
      obtain ⟨hd1, hreal⟩ := validate_date_ok hd
      obtain ⟨q, _, hqpos, hx⟩ := validate_amount_ok ha
      subst ht hd1 hx
      exact ⟨round2_nonneg (le_of_lt hqpos), hreal,
        pyLower_pyNormalize c, pyStrip_pyNormalize c⟩

/-- Witness for C6 at a concrete valid construction. -/
theorem C6_witness :
    (0 : ℚ) ≤ (1500 : ℚ) ∧ isRealYMD "2024-11-01" = true ∧
    pyLower "salary" = "salary" ∧ pyStrip "salary" = "salary" := by
  have hd : validate_date "2024-11-01" = .ok "2024-11-01" :=
    validate_date_of_real (by decide)
  have ha : validate_amount (.numeric 1500) = .ok 1500 := by
    norm_num [validate_amount, pyFloat, round2, roundHalfEven]
  have hc : pyNormalize " Salary " = "salary" := by decide
  have hds : pyStrip "pay" = "pay" := by decide
  have hmk : mkTransaction .income "2024-11-01" (.numeric 1500) " Salary " "pay" =
      .ok ⟨"2024-11-01", 1500, "salary", "pay", .income⟩ := by
    unfold mkTransaction
    rw [hd, ha]
    show Except.ok _ = _
    rw [hc, hds]
  exact C6_invariants .income "2024-11-01" (.numeric 1500) " Salary " "pay" _ hmk

/-- C7: amount validation fails with `InvalidAmount` exactly on
non-numeric input or a numeric value at most 0 (zero included), and a
construction whose date is valid fails with `InvalidAmount` on every such
amount. -/
theorem C7_invalid_amount (k : TxKind) (d : String) (a : PyValue) (c ds : String) :
    (validate_amount a = .error .invalidAmount ↔
      pyFloat a = none ∨ ∃ q, pyFloat a = some q ∧ q ≤ 0) ∧
    (validate_date d = .ok d →
      (pyFloat a = none ∨ ∃ q, pyFloat a = some q ∧ q ≤ 0) →
      mkTransaction k d a c ds = .error .invalidAmount) := by
  have hval : validate_amount a = .error .invalidAmount ↔
      pyFloat a = none ∨ ∃ q, pyFloat a = some q ∧ q ≤ 0 := by
    unfold validate_amount
    cases hf : pyFloat a with
    | none => simp
    | some q =>
      by_cases hq : q ≤ 0
      · simp [if_pos hq, hq]
      · simp [if_neg hq, hq]
  refine ⟨hval, fun hd hbad => ?_⟩
  unfold mkTransaction
  rw [hd, hval.mpr hbad]
  rfl

/-- Witness for C7 at amount 0 with a valid date. -/
theorem C7_witness :
    mkTransaction .expense "2024-11-02" (.numeric 0) "groceries" "zero" =
      .error .invalidAmount := by
  have h := C7_invalid_amount .expense "2024-11-02" (.numeric 0) "groceries" "zero"
  exact h.2 (validate_date_of_real (by decide)) (Or.inr ⟨0, rfl, le_refl 0⟩)

/-- C8: date validation succeeds, returning the input unchanged, exactly
on real `YYYY-MM-DD` calendar dates; on every other string it fails with
`InvalidDate`, and so does the whole construction (the date is validated
first). -/
theorem C8_validate_date (s : String) :
    (isRealYMD s = true → validate_date s = .ok s) ∧
    (isRealYMD s = false →
      validate_date s = .error .invalidDate ∧
      ∀ (k : TxKind) (a : PyValue) (c ds : String),
        mkTransaction k s a c ds = .error .invalidDate) := by
  refine ⟨validate_date_of_real, fun hn => ⟨validate_date_of_not_real hn, ?_⟩⟩
  intro k a c ds
  unfold mkTransaction
  rw [validate_date_of_not_real hn]
  rfl

/-- Witness for C8: "2024-02-30" (not a real date) is rejected by the
whole construction, and "2024-02-29" (2024 is a leap year) is accepted. -/
theorem C8_witness :
    mkTransaction .expense "2024-02-30" (.numeric 10) "x" "" =
      .error .invalidDate ∧
    validate_date "2024-02-29" = .ok "2024-02-29" := by
  constructor
  · exact ((C8_validate_date "2024-02-30").2 (by decide)).2 .expense (.numeric 10) "x" ""
  · exact (C8_validate_date "2024-02-29").1 (by decide)

/-- C9: for every valid input tuple (real calendar date, numeric amount
strictly greater than 0), construction succeeds; the stored amount is the
input rounded to 2 decimals, the stored category is the input trimmed and
lower-cased, the stored description is the input trimmed, and the date is
stored unchanged. -/
theorem C9_roundtrip (k : TxKind) (d : String) (a : PyValue) (q : ℚ) (c ds : String)
    (hd : isRealYMD d = true) (ha : pyFloat a = some q) (hq : 0 < q) :
    mkTransaction k d a c ds = .ok ⟨d, round2 q, pyNormalize c, pyStrip ds, k⟩ := by
  have hda : validate_amount a = .ok (round2 q) := by
    unfold validate_amount
    rw [ha]
    dsimp only
    rw [if_neg (not_le.mpr hq)]
  unfold mkTransaction
  rw [validate_date_of_real hd, hda]
  rfl

/-- Witness for C9 at the spec's own scenario: amount 45.50, category
" Groceries ", description " Weekly shopping ". -/
theorem C9_witness :
    mkTransaction .expense "2024-11-02" (.numeric (91/2)) " Groceries " " Weekly shopping " =
      .ok ⟨"2024-11-02", round2 (91/2), pyNormalize " Groceries ", pyStrip " Weekly shopping ",
        .expense⟩ :=
  C9_roundtrip .expense "2024-11-02" (.numeric (91/2)) (91/2) " Groceries "
    " Weekly shopping " (by decide) rfl (by norm_num)

/-- C10: the query operations `get_remaining`, `is_over_budget`,
`get_status`, `get_all_categories`, `get_budget_report` and `to_dict`
leave the state (both maps) unchanged: each state-threaded translation
returns its pure value together with the untouched input state. -/
theorem C10_queries_pure (b : Budget) (c : String) :
    b.get_remaining_st c = (b.get_remaining c, b) ∧
    b.is_over_budget_st c = (b.is_over_budget c, b) ∧
    b.get_status_st c = (b.get_status c, b) ∧
    b.get_all_categories_st = (b.get_all_categories, b) ∧
    b.get_budget_report_st = (b.get_budget_report, b) ∧
    b.to_dict_st = (b.to_dict, b) := by
  have h1 : b.get_remaining_st c = (b.get_remaining c, b) := by
    unfold Budget.get_remaining_st Budget.get_remaining
    dsimp only
    by_cases hc : (!(dcontains b.limits (pyNormalize c))) = true
    · simp only [if_pos hc]
    · simp only [if_neg hc]
  have h2 : b.is_over_budget_st c = (b.is_over_budget c, b) := by
    unfold Budget.is_over_budget_st Budget.is_over_budget
    rw [h1]
    cases b.get_remaining c <;> rfl
  have h5 : b.get_budget_report_st = (b.get_budget_report, b) := by
    unfold Budget.get_budget_report_st Budget.get_budget_report
    rw [reportLoop_eq]
  exact ⟨h1, h2, get_status_st_eq b c, rfl, h5, rfl⟩

end FinTrack
